import Mathlib

/-!
Verification of the visual-map core of FAST-LIVO2 (frame.cpp, visual_point.cpp).

Coordinates and scores are modelled as exact rationals (every IEEE double is a
rational number); the viewpoint-cosine computations of `getCloseViewObs` cast
them into the reals, where `normalize` and `dot` are the exact Euclidean
operations.  Pointers are modelled by records that carry an allocation
identity `fid`, so that pointer comparison becomes structural equality.
-/

namespace FastLivo

/-! ## Vectors -/

abbrev Vec3 := ℚ × ℚ × ℚ

abbrev Vec2 := ℚ × ℚ

abbrev RVec3 := ℝ × ℝ × ℝ

def toR (v : Vec3) : RVec3 := ((v.1 : ℝ), (v.2.1 : ℝ), (v.2.2 : ℝ))

def dotR (a b : RVec3) : ℝ := a.1 * b.1 + a.2.1 * b.2.1 + a.2.2 * b.2.2

def subR (a b : RVec3) : RVec3 := (a.1 - b.1, a.2.1 - b.2.1, a.2.2 - b.2.2)

/-- Eigen's `Vector3d::normalize()`: divide by the Euclidean norm. -/
noncomputable def normalizeR (v : RVec3) : RVec3 :=
  (v.1 / Real.sqrt (dotR v v), v.2.1 / Real.sqrt (dotR v v), v.2.2 / Real.sqrt (dotR v v))

/-- `normalize(target - pos)`: unit direction from `pos` towards `target`
(visual_point.cpp lines 72-73 and 78-79). -/
noncomputable def dirFrom (pos target : Vec3) : RVec3 :=
  normalizeR (subR (toR target) (toR pos))

/-! ## Feature and VisualPoint (visual_point.h / visual_point.cpp) -/

/-- One observation of a visual point.  `fid` is the allocation identity of the
`Feature*`; `T_f_w_inv_trans_` is the value `T_f_w_.inverse().translation()`
read by `getCloseViewObs` (the camera position in world coordinates captured at
anchoring time); `score_` is the photometric score. -/
structure Feature where
  fid : ℕ
  T_f_w_inv_trans_ : Vec3
  score_ : ℚ
deriving DecidableEq

/-- State of a `VisualPoint`: world position `pos_`, the observation list
`obs_` (a `std::list<Feature*>`, front = most recently added), the optional
reference patch pointer and its flag.  The normal-estimation members of the
source (`normal_`, `previous_normal_` and the two flags) are carried for
completeness but unused by the operations below. -/
structure VisualPoint where
  pos_ : Vec3
  previous_normal_ : Vec3
  normal_ : Vec3
  converged_ : Bool
  normalInit_ : Bool
  has_ref_patch_ : Bool
  obs_ : List Feature
  ref_patch : Option Feature
deriving DecidableEq

/-- `VisualPoint::VisualPoint(pos)` (visual_point.cpp lines 20-24). -/
def mkVisualPoint (pos : Vec3) : VisualPoint :=
  { pos_ := pos, previous_normal_ := (0, 0, 0), normal_ := (0, 0, 0),
    converged_ := false, normalInit_ := false, has_ref_patch_ := false,
    obs_ := [], ref_patch := none }

/-- `VisualPoint::addFrameRef` (visual_point.cpp lines 40-43): `obs_.push_front(ftr)`. -/
def addFrameRef (vp : VisualPoint) (ftr : Feature) : VisualPoint :=
  { vp with obs_ := ftr :: vp.obs_ }

/-- `VisualPoint::deleteFeatureRef` (visual_point.cpp lines 47-63): clear the
reference-patch slot if it is the deleted feature, then erase the first
matching entry of `obs_`. -/
def deleteFeatureRef (vp : VisualPoint) (ftr : Feature) : VisualPoint :=
  let vp1 := if vp.ref_patch = some ftr then
    { vp with ref_patch := none, has_ref_patch_ := false } else vp
  { vp1 with obs_ := vp1.obs_.erase ftr }

/-- The viewpoint cosine of one observation: dot product of the unit direction
from the point to the query frame position with the unit direction from the
point to the observation's anchored frame position (visual_point.cpp lines
72-80). -/
noncomputable def cosAngle (vp : VisualPoint) (framepos : Vec3) (f : Feature) : ℝ :=
  dotR (dirFrom vp.pos_ framepos) (dirFrom vp.pos_ f.T_f_w_inv_trans_)

/-- The scan loop of `getCloseViewObs` (visual_point.cpp lines 74-86): state
`(min_it, min_cos_angle)` starting at `(obs_.begin(), 0)`, updated whenever a
strictly larger cosine is found. -/
noncomputable def closeViewLoop (vp : VisualPoint) (framepos : Vec3) :
    List Feature → Feature → ℝ → Feature × ℝ
  | [], best, bestCos => (best, bestCos)
  | f :: rest, best, bestCos =>
    if cosAngle vp framepos f > bestCos then
      closeViewLoop vp framepos rest f (cosAngle vp framepos f)
    else
      closeViewLoop vp framepos rest best bestCos

/-- `VisualPoint::getCloseViewObs` (visual_point.cpp lines 67-105).  Returns
the `bool` result together with the value written into the output reference
`ftr` (`none` when the early empty-list return leaves it untouched).  The
`cur_px` argument is accepted but unused, as in the source. -/
noncomputable def getCloseViewObs (vp : VisualPoint) (framepos : Vec3) (cur_px : Vec2) :
    Bool × Option Feature :=
  match vp.obs_ with
  | [] => (false, none)
  | h :: t =>
    if (closeViewLoop vp framepos (h :: t) h 0).2 < 1 / 2 then
      (false, some (closeViewLoop vp framepos (h :: t) h 0).1)
    else
      (true, some (closeViewLoop vp framepos (h :: t) h 0).1)

/-- `std::numeric_limits<float>::max()` as an exact rational:
the numeral is `2 ^ 128 - 2 ^ 104`. -/
def FLT_MAX : ℚ := 340282346638528859811704183484516925440

/-- The scan loop of `findMinScoreFeature` (visual_point.cpp lines 111-121):
state `(min_it, min_score)` starting at `(obs_.begin(), FLT_MAX)`, updated on a
strictly smaller score. -/
def findMinLoop : List Feature → Feature → ℚ → Feature
  | [], best, _ => best
  | f :: rest, best, minScore =>
    if f.score_ < minScore then findMinLoop rest f f.score_
    else findMinLoop rest best minScore

/-- `VisualPoint::findMinScoreFeature` (visual_point.cpp lines 109-123).
On an empty list the source dereferences `obs_.end()` (undefined behaviour);
the model returns `none` there. -/
def findMinScoreFeature (vp : VisualPoint) : Option Feature :=
  match vp.obs_ with
  | [] => none
  | h :: t => some (findMinLoop (h :: t) h FLT_MAX)

/-- Written from the spec's words for the refinement comparison of C7: "the
observation with the smallest `score_` ... ties broken by earliest in
iteration order": the first-encountered minimum-score element of `h :: t`. -/
def specFirstMin (h : Feature) (t : List Feature) : Feature :=
  t.foldl (fun x f => if f.score_ < x.score_ then f else x) h

/-- `VisualPoint::deleteNonRefPatchFeatures` (visual_point.cpp lines 127-141):
keep exactly the entries equal to `ref_patch`; the second component collects
the entries that were `delete`d (freed). -/
def deleteNonRefPatchFeatures (vp : VisualPoint) : VisualPoint × List Feature :=
  ({ vp with obs_ := vp.obs_.filter fun f => some f = vp.ref_patch },
   vp.obs_.filter fun f => some f ≠ vp.ref_patch)

/-! ## Images, camera, Frame (frame.h / frame.cpp) -/

/-- A `cv::Mat`: dimensions, OpenCV type code and pixel contents. -/
structure Img where
  rows : ℕ
  cols : ℕ
  typ : ℕ
  pix : ℕ → ℕ → ℕ

/-- The OpenCV type code `CV_8UC1` (= `CV_8U` with one channel = 0). -/
def CV_8UC1 : ℕ := 0

/-- The camera-model handle: `cam_->width()` and `cam_->height()`. -/
structure Camera where
  width : ℕ
  height : ℕ

/-- The two fatal construction errors of `Frame::initFrame`
(frame.cpp lines 45 and 52). -/
inductive FrameError where
  | emptyImage
  | badPixelFormat
deriving DecidableEq

/-- `Frame::initFrame` (frame.cpp lines 43-55): throw on an empty image, warn
(non-fatally) on a size mismatch, throw on a non-`CV_8UC1` image, otherwise
store the supplied image.  The first component records whether the warning was
emitted. -/
def initFrame (cam : Camera) (img : Img) : Bool × Except FrameError Img :=
  if img.rows = 0 ∨ img.cols = 0 then (false, .error .emptyImage)
  else
    let warn : Bool := decide (img.cols ≠ cam.width ∨ img.rows ≠ cam.height)
    if img.typ ≠ CV_8UC1 then (warn, .error .badPixelFormat)
    else (warn, .ok img)

/-- Modelled from the spec: the `Frame` record ("monotone ID, pyramid, camera
model handle, ...") whose member declarations live in `frame.h`, which is not
part of the snapshot.  The constructor in `frame.cpp` initializes `id_` and
(via `initFrame`) `img_`; the pyramid member `img_pyr_` is never written by it
and stays default-initialized (empty). -/
structure Frame where
  id_ : ℕ
  img_ : Img
  img_pyr_ : List Img

/-- `Frame::Frame(cam, img)` (frame.cpp lines 27-32): the member initializer
`id_(frame_counter_++)` increments the process-wide counter before
`initFrame(img)` runs, so the counter advances even when construction throws.
Explicit state passing: takes and returns the counter. -/
def mkFrame (counter : ℕ) (cam : Camera) (img : Img) : ℕ × Except FrameError Frame :=
  match (initFrame cam img).2 with
  | .error e => (counter + 1, .error e)
  | .ok stored => (counter + 1, .ok { id_ := counter, img_ := stored, img_pyr_ := [] })

def frameOk (r : Except FrameError Frame) : Bool :=
  match r with
  | .ok _ => true
  | .error _ => false

/-- A sequence of `Frame` constructions threading the process-wide counter:
for each attempted image, the id it consumed and whether it succeeded. -/
def runAttempts (cam : Camera) : ℕ → List Img → List (ℕ × Bool)
  | _, [] => []
  | c, img :: rest =>
    (c, frameOk (mkFrame c cam img).2) :: runAttempts cam (mkFrame c cam img).1 rest

/-- The ids of the successfully constructed frames, in construction order. -/
def successIds (l : List (ℕ × Bool)) : List ℕ :=
  (l.filter fun p => p.2).map fun p => p.1

/-! ## Image pyramid (frame.cpp lines 63-72) -/

/-- Modelled from the spec: `vk::halfSample` lives in the external vikit
library; the spec describes it as the "half-sampled predecessor (2x2 box
average)".  The output dimensions `rows / 2` x `cols / 2` and the `CV_8U` type
come from `frame.cpp` line 69. -/
def halfSample (img : Img) : Img :=
  { rows := img.rows / 2, cols := img.cols / 2, typ := CV_8UC1,
    pix := fun y x =>
      (img.pix (2 * y) (2 * x) + img.pix (2 * y) (2 * x + 1) +
        img.pix (2 * y + 1) (2 * x) + img.pix (2 * y + 1) (2 * x + 1)) / 4 }

/-- The loop of `frame_utils::createImgPyramid` (frame.cpp lines 67-71):
levels `1 .. n_levels-1`, each the half-sample of its predecessor. -/
def buildLevels (prev : Img) : ℕ → List Img
  | 0 => []
  | k + 1 => halfSample prev :: buildLevels (halfSample prev) k

/-- `frame_utils::createImgPyramid` (frame.cpp lines 63-72): level 0 is the
input itself, each further level the half-sample of its predecessor. -/
def createImgPyramid (img : Img) (nLevels : ℕ) : List Img :=
  match nLevels with
  | 0 => []
  | k + 1 => img :: buildLevels img k

/-- `halfSample` iterated: the expected content of pyramid level `k`. -/
def pyrLevel (img : Img) : ℕ → Img
  | 0 => img
  | k + 1 => halfSample (pyrLevel img k)

/-! ## Concrete inputs for witnesses and counterexamples -/

def px0 : Vec2 := (0, 0)

def f1 : Feature := { fid := 1, T_f_w_inv_trans_ := (1, 0, 0), score_ := 0 }

def fp1 : Vec3 := (1, 0, 0)

def vp1 : VisualPoint :=
  { mkVisualPoint (0, 0, 0) with obs_ := [f1] }

def f2 : Feature := { fid := 2, T_f_w_inv_trans_ := (0, 1, 1), score_ := 0 }

def fp2 : Vec3 := (1, 1, 0)

def vp2 : VisualPoint :=
  { mkVisualPoint (0, 0, 0) with obs_ := [f2] }

def f3 : Feature := { fid := 3, T_f_w_inv_trans_ := (-1, 0, 0), score_ := 0 }

def vp3 : VisualPoint :=
  { mkVisualPoint (0, 0, 0) with obs_ := [f3] }

def cam4 : Camera := { width := 4, height := 4 }

def img4 : Img := { rows := 4, cols := 4, typ := 0, pix := fun _ _ => 0 }

def img2 : Img := { rows := 2, cols := 2, typ := 0, pix := fun _ _ => 0 }

def imgE : Img := { rows := 0, cols := 0, typ := 0, pix := fun _ _ => 0 }

def frame4 : Frame := { id_ := 0, img_ := img4, img_pyr_ := [] }

/-- A score above `FLT_MAX` (standing in for float infinity): `2 ^ 130`. -/
def fBig : Feature :=
  { fid := 10, T_f_w_inv_trans_ := (0, 0, 0),
    score_ := 1361129467683753853853498429727072845824 }

def fMax : Feature := { fid := 11, T_f_w_inv_trans_ := (0, 0, 0), score_ := FLT_MAX }

def vpC7 : VisualPoint :=
  { mkVisualPoint (0, 0, 0) with obs_ := [fBig, fMax] }

def g7 : Feature := { fid := 20, T_f_w_inv_trans_ := (0, 0, 0), score_ := 7 }

def g3a : Feature := { fid := 21, T_f_w_inv_trans_ := (0, 0, 0), score_ := 3 }

def g3b : Feature := { fid := 22, T_f_w_inv_trans_ := (0, 0, 0), score_ := 3 }

def vp7 : VisualPoint :=
  { mkVisualPoint (0, 0, 0) with obs_ := [g7, g3a, g3b] }

def vpW8 : VisualPoint :=
  { mkVisualPoint (0, 0, 0) with obs_ := [g7, g3a] }

def f9 : Feature := { fid := 30, T_f_w_inv_trans_ := (0, 0, 0), score_ := 5 }

def vp9 : VisualPoint :=
  { mkVisualPoint (0, 0, 0) with obs_ := [g7], ref_patch := some g7, has_ref_patch_ := true }

/-! ## Helper lemmas: the scan loop of getCloseViewObs -/

theorem closeViewLoop_snd (vp : VisualPoint) (fp : Vec3) :
    ∀ (l : List Feature) (b : Feature) (c : ℝ),
    (closeViewLoop vp fp l b c).2 = l.foldl (fun m f => max m (cosAngle vp fp f)) c
  | [], _, _ => rfl
  | f :: t, b, c => by
    simp only [closeViewLoop, List.foldl_cons]
    by_cases h : cosAngle vp fp f > c
    · rw [if_pos h, closeViewLoop_snd vp fp t f (cosAngle vp fp f),
        max_eq_right (le_of_lt h)]
    · rw [if_neg h, closeViewLoop_snd vp fp t b c, max_eq_left (not_lt.mp h)]

theorem closeViewLoop_fst (vp : VisualPoint) (fp : Vec3) :
    ∀ (l : List Feature) (b : Feature) (c : ℝ),
    ((closeViewLoop vp fp l b c).1 = b ∧ (closeViewLoop vp fp l b c).2 = c) ∨
      ((closeViewLoop vp fp l b c).1 ∈ l ∧
        cosAngle vp fp ((closeViewLoop vp fp l b c).1) = (closeViewLoop vp fp l b c).2)
  | [], _, _ => Or.inl ⟨rfl, rfl⟩
  | f :: t, b, c => by
    simp only [closeViewLoop]
    by_cases h : cosAngle vp fp f > c
    · rw [if_pos h]
      rcases closeViewLoop_fst vp fp t f (cosAngle vp fp f) with ⟨h1, h2⟩ | ⟨h1, h2⟩
      · exact Or.inr ⟨by rw [h1]; exact List.mem_cons_self f t, by rw [h1, h2]⟩
      · exact Or.inr ⟨List.mem_cons_of_mem f h1, h2⟩
    · rw [if_neg h]
      rcases closeViewLoop_fst vp fp t b c with ⟨h1, h2⟩ | ⟨h1, h2⟩
      · exact Or.inl ⟨h1, h2⟩
      · exact Or.inr ⟨List.mem_cons_of_mem f h1, h2⟩

theorem closeViewLoop_of_le (vp : VisualPoint) (fp : Vec3) :
    ∀ (l : List Feature) (b : Feature) (c : ℝ),
    (∀ f ∈ l, cosAngle vp fp f ≤ c) → closeViewLoop vp fp l b c = (b, c)
  | [], _, _, _ => rfl
  | f :: t, b, c, h => by
    simp only [closeViewLoop]
    rw [if_neg (not_lt.mpr (h f (List.mem_cons_self f t)))]
    exact closeViewLoop_of_le vp fp t b c fun g hg => h g (List.mem_cons_of_mem f hg)

theorem foldl_max_lt_iff (g : Feature → ℝ) (x : ℝ) :
    ∀ (l : List Feature) (c : ℝ),
    l.foldl (fun m f => max m (g f)) c < x ↔ c < x ∧ ∀ f ∈ l, g f < x
  | [], c => by simp
  | f :: t, c => by
    simp only [List.foldl_cons, foldl_max_lt_iff g x t, max_lt_iff, List.mem_cons]
    constructor
    · rintro ⟨⟨h1, h2⟩, h3⟩
      exact ⟨h1, fun a ha => ha.elim (fun e => e ▸ h2) (h3 a)⟩
    · rintro ⟨h1, h2⟩
      exact ⟨⟨h1, h2 f (Or.inl rfl)⟩, fun a ha => h2 a (Or.inr ha)⟩

theorem le_foldl_max (g : Feature → ℝ) (l : List Feature) (c : ℝ) (f : Feature)
    (hf : f ∈ l) : g f ≤ l.foldl (fun m x => max m (g x)) c := by
  by_contra h
  exact absurd (((foldl_max_lt_iff g (g f) l c).mp (not_le.mp h)).2 f hf) (lt_irrefl _)

theorem getCloseViewObs_cons (vp : VisualPoint) (fp : Vec3) (px : Vec2) (h : Feature)
    (t : List Feature) (hobs : vp.obs_ = h :: t) :
    getCloseViewObs vp fp px =
      (if (closeViewLoop vp fp (h :: t) h 0).2 < 1 / 2 then false else true,
       some (closeViewLoop vp fp (h :: t) h 0).1) := by
  simp only [getCloseViewObs, hobs]
  by_cases hth : (closeViewLoop vp fp (h :: t) h 0).2 < 1 / 2
  · rw [if_pos hth, if_pos hth]
  · rw [if_neg hth, if_neg hth]

/-- C1: for every VisualPoint and every query frame position, `getCloseViewObs`
reports not found exactly when the observation list is empty or every
observation's viewpoint cosine is below 0.5, and whenever it reports found the
feature it returns is an observation maximizing the viewpoint cosine (the dot
product of the unit vector from the point to the query position with the unit
vector from the point to the observation's anchored frame position). -/
theorem getCloseViewObs_viewpoint_spec (vp : VisualPoint) (fp : Vec3) (px : Vec2) :
    ((getCloseViewObs vp fp px).1 = false ↔
      vp.obs_ = [] ∨ ∀ f ∈ vp.obs_, cosAngle vp fp f < 1 / 2) ∧
    ((getCloseViewObs vp fp px).1 = true →
      ∃ f, (getCloseViewObs vp fp px).2 = some f ∧ f ∈ vp.obs_ ∧
        ∀ g ∈ vp.obs_, cosAngle vp fp g ≤ cosAngle vp fp f) := by
  cases hobs : vp.obs_ with
  | nil =>
    constructor
    · simp [getCloseViewObs, hobs]
    · intro hfound
      rw [show (getCloseViewObs vp fp px).1 = false by simp [getCloseViewObs, hobs]] at hfound
      exact absurd hfound (by simp)
  | cons h t =>
    rw [getCloseViewObs_cons vp fp px h t hobs]
    have hsnd := closeViewLoop_snd vp fp (h :: t) h 0
    by_cases hth : (closeViewLoop vp fp (h :: t) h 0).2 < 1 / 2
    · have hall : ∀ f ∈ h :: t, cosAngle vp fp f < 1 / 2 :=
        ((foldl_max_lt_iff (cosAngle vp fp) (1 / 2) (h :: t) 0).mp (hsnd ▸ hth)).2
      rw [if_pos hth]
      constructor
      · exact ⟨fun _ => Or.inr (hobs ▸ hall), fun _ => rfl⟩
      · intro hfound; exact absurd hfound (by simp)
    · have hge : (1 : ℝ) / 2 ≤ (closeViewLoop vp fp (h :: t) h 0).2 := not_lt.mp hth
      rw [if_neg hth]
      constructor
      · constructor
        · intro hfalse; exact absurd hfalse (by simp)
        · rintro (hnil | hlt)
          · exact absurd (hobs ▸ hnil) (List.cons_ne_nil h t)
          · exfalso
            have : (closeViewLoop vp fp (h :: t) h 0).2 < 1 / 2 := by
              rw [hsnd]
              exact (foldl_max_lt_iff (cosAngle vp fp) (1 / 2) (h :: t) 0).mpr
                ⟨by norm_num, fun f hf => hlt f (hobs ▸ hf)⟩
            exact absurd this hth
      · intro _
        rcases closeViewLoop_fst vp fp (h :: t) h 0 with ⟨_, h2⟩ | ⟨hmem, hcos⟩
        · rw [h2] at hge; norm_num at hge
        · refine ⟨(closeViewLoop vp fp (h :: t) h 0).1, rfl, hobs ▸ hmem, ?_⟩
          intro g hg
          rw [hcos, hsnd]
          exact le_foldl_max (cosAngle vp fp) (h :: t) 0 g (hobs ▸ hg)

theorem cosAngle_vp1 : cosAngle vp1 fp1 f1 = 1 := by
  simp only [cosAngle, dirFrom, normalizeR, subR, dotR, toR, vp1, f1, fp1, mkVisualPoint]
  norm_num

theorem cosAngle_vp2 : cosAngle vp2 fp2 f2 = 1 / 2 := by
  have h2 : Real.sqrt 2 * Real.sqrt 2 = 2 := Real.mul_self_sqrt (by norm_num)
  simp only [cosAngle, dirFrom, normalizeR, subR, dotR, toR, vp2, f2, fp2, mkVisualPoint]
  norm_num
  rw [← mul_inv, h2]
  norm_num

theorem cosAngle_vp3 : cosAngle vp3 fp1 f3 = -1 := by
  simp only [cosAngle, dirFrom, normalizeR, subR, dotR, toR, vp3, f3, fp1, mkVisualPoint]
  norm_num

theorem gco_vp1_eq : getCloseViewObs vp1 fp1 px0 = (true, some f1) := by
  rw [getCloseViewObs_cons vp1 fp1 px0 f1 [] rfl]
  simp only [closeViewLoop]
  rw [if_pos (by rw [cosAngle_vp1]; norm_num : cosAngle vp1 fp1 f1 > 0)]
  simp only [closeViewLoop, cosAngle_vp1]
  norm_num

theorem gco_vp2_eq : getCloseViewObs vp2 fp2 px0 = (true, some f2) := by
  rw [getCloseViewObs_cons vp2 fp2 px0 f2 [] rfl]
  simp only [closeViewLoop]
  rw [if_pos (by rw [cosAngle_vp2]; norm_num : cosAngle vp2 fp2 f2 > 0)]
  simp only [closeViewLoop, cosAngle_vp2]
  norm_num

/-- Witness for C1: with one observation anchored at `(1,0,0)` seen from query
position `(1,0,0)` (cosine 1), `getCloseViewObs` finds the maximizing
observation. -/
theorem getCloseViewObs_viewpoint_spec_witness :
    ∃ f, (getCloseViewObs vp1 fp1 px0).2 = some f ∧ f ∈ vp1.obs_ ∧
      ∀ g ∈ vp1.obs_, cosAngle vp1 fp1 g ≤ cosAngle vp1 fp1 f :=
  (getCloseViewObs_viewpoint_spec vp1 fp1 px0).2 (by rw [gco_vp1_eq])

/-- C2 counterexample: point at the origin, query frame position `(1,1,0)`,
one observation anchored at `(0,1,1)`: the viewpoint cosine is exactly 0.5,
yet `getCloseViewObs` reports FOUND (the source rejects with the strict test
`min_cos_angle < 0.5`, so cosine exactly 0.5 passes). -/
theorem getCloseViewObs_cos_half_counterexample :
    cosAngle vp2 fp2 f2 = 1 / 2 ∧ (getCloseViewObs vp2 fp2 px0).1 = true :=
  ⟨cosAngle_vp2, by rw [gco_vp2_eq]⟩

/-- C2 amended: with one observation whose viewpoint cosine is exactly 0.5,
`getCloseViewObs` reports found: the rejection comparison is the strict
`min_cos_angle < 0.5`, so found requires cosine greater than or equal to 0.5,
not strictly greater. -/
theorem getCloseViewObs_cos_half_found (vp : VisualPoint) (fp : Vec3) (px : Vec2)
    (f : Feature) (hobs : vp.obs_ = [f]) (hcos : cosAngle vp fp f = 1 / 2) :
    (getCloseViewObs vp fp px).1 = true := by
  rw [getCloseViewObs_cons vp fp px f [] hobs]
  simp only [closeViewLoop]
  rw [if_pos (by rw [hcos]; norm_num : cosAngle vp fp f > 0)]
  simp only [closeViewLoop, hcos]
  norm_num

/-- Witness for the amended C2 at the concrete cosine-0.5 configuration. -/
theorem getCloseViewObs_cos_half_found_witness :
    (getCloseViewObs vp2 fp2 px0).1 = true :=
  getCloseViewObs_cos_half_found vp2 fp2 px0 f2 rfl cosAngle_vp2

/-- C10: with a non-empty observation list, `getCloseViewObs` always writes a
member of the list into the output reference, even when it reports not found;
when every observation's cosine is at most 0, the element written is the first
(most recently added) observation, since the scan only replaces `min_it` on a
cosine strictly greater than the running value initialized to 0. -/
theorem getCloseViewObs_writes_output (vp : VisualPoint) (fp : Vec3) (px : Vec2)
    (h : Feature) (t : List Feature) (hobs : vp.obs_ = h :: t) :
    (∃ f, (getCloseViewObs vp fp px).2 = some f ∧ f ∈ vp.obs_) ∧
    ((∀ f ∈ vp.obs_, cosAngle vp fp f ≤ 0) → (getCloseViewObs vp fp px).2 = some h) := by
  rw [getCloseViewObs_cons vp fp px h t hobs]
  constructor
  · rcases closeViewLoop_fst vp fp (h :: t) h 0 with ⟨h1, _⟩ | ⟨hmem, _⟩
    · exact ⟨h, by rw [h1], hobs ▸ List.mem_cons_self h t⟩
    · exact ⟨(closeViewLoop vp fp (h :: t) h 0).1, rfl, hobs ▸ hmem⟩
  · intro hall
    rw [closeViewLoop_of_le vp fp (h :: t) h 0 (fun f hf => hall f (hobs ▸ hf))]

/-- Witness for C10: one observation anchored at `(-1,0,0)` seen from `(1,0,0)`
(cosine -1, not found), yet the head observation is written to the output. -/
theorem getCloseViewObs_writes_output_witness :
    (getCloseViewObs vp3 fp1 px0).2 = some f3 :=
  (getCloseViewObs_writes_output vp3 fp1 px0 f3 [] rfl).2 (by
    intro f hf
    rw [show vp3.obs_ = [f3] from rfl, List.mem_singleton] at hf
    rw [hf, cosAngle_vp3]
    norm_num)

/-! ## findMinScoreFeature (C7) -/

theorem findMinLoop_eq_foldl :
    ∀ (t : List Feature) (b : Feature),
    findMinLoop t b b.score_ = t.foldl (fun x f => if f.score_ < x.score_ then f else x) b
  | [], _ => rfl
  | f :: t, b => by
    simp only [findMinLoop, List.foldl_cons]
    by_cases h : f.score_ < b.score_
    · rw [if_pos h, if_pos h, findMinLoop_eq_foldl t f]
    · rw [if_neg h, if_neg h, findMinLoop_eq_foldl t b]

/-- C7 counterexample: with observations scored `2^130` (head) and
`FLT_MAX`, the scan's sentinel initialization `min_score = FLT_MAX` with a
strict comparison never fires, so the head is returned even though the second
observation's score is strictly smaller. -/
theorem findMinScoreFeature_counterexample :
    findMinScoreFeature vpC7 = some fBig ∧ fMax ∈ vpC7.obs_ ∧
      fMax.score_ < fBig.score_ := by
  decide

/-- C7 amended: for a VisualPoint whose observation list is non-empty and all
of whose scores are below `FLT_MAX` (the sentinel that initializes the scan),
`findMinScoreFeature` returns the first-encountered minimum-score observation;
iteration order is newest-first because `addFrameRef` prepends. -/
theorem findMinScoreFeature_amended (vp : VisualPoint) (h : Feature) (t : List Feature)
    (hobs : vp.obs_ = h :: t) (hsc : ∀ f ∈ vp.obs_, f.score_ < FLT_MAX) :
    findMinScoreFeature vp = some (specFirstMin h t) ∧
    ∀ g : Feature, (addFrameRef vp g).obs_ = g :: vp.obs_ := by
  constructor
  · simp only [findMinScoreFeature, hobs, findMinLoop]
    rw [if_pos (hsc h (hobs ▸ List.mem_cons_self h t)), findMinLoop_eq_foldl t h]
    rfl
  · intro g
    rfl

/-- Witness for the amended C7: scores `[7, 3, 3]` in newest-first order; the
first-encountered minimum (the score-3 observation nearer the front) is
returned. -/
theorem findMinScoreFeature_amended_witness :
    findMinScoreFeature vp7 = some (specFirstMin g7 [g3a, g3b]) ∧
    ∀ g : Feature, (addFrameRef vp7 g).obs_ = g :: vp7.obs_ :=
  findMinScoreFeature_amended vp7 g7 [g3a, g3b] rfl (by decide)

/-! ## deleteNonRefPatchFeatures (C8) and the add/delete round trip (C9) -/

theorem deleteNonRefPatchFeatures_obs (vp : VisualPoint) :
    (deleteNonRefPatchFeatures vp).1.obs_ =
      vp.obs_.filter fun f => some f = vp.ref_patch := rfl

theorem deleteNonRefPatchFeatures_freed (vp : VisualPoint) :
    (deleteNonRefPatchFeatures vp).2 =
      vp.obs_.filter fun f => some f ≠ vp.ref_patch := rfl

/-- C8: after `deleteNonRefPatchFeatures`, every remaining observation is the
designated reference patch; with no reference patch designated the list is
emptied; and every non-reference observation has been freed. -/
theorem deleteNonRefPatchFeatures_spec (vp : VisualPoint) :
    (∀ f ∈ (deleteNonRefPatchFeatures vp).1.obs_, vp.ref_patch = some f) ∧
    (vp.ref_patch = none → (deleteNonRefPatchFeatures vp).1.obs_ = []) ∧
    (∀ f ∈ vp.obs_, vp.ref_patch ≠ some f → f ∈ (deleteNonRefPatchFeatures vp).2) := by
  refine ⟨?_, ?_, ?_⟩
  · intro f hf
    rw [deleteNonRefPatchFeatures_obs, List.mem_filter] at hf
    exact (of_decide_eq_true hf.2).symm
  · intro hnone
    rw [deleteNonRefPatchFeatures_obs, hnone]
    simp
  · intro f hf hne
    rw [deleteNonRefPatchFeatures_freed, List.mem_filter]
    refine ⟨hf, decide_eq_true ?_⟩
    exact fun e => hne e.symm

/-- Witness for C8: a point with no designated reference patch has its whole
observation list emptied. -/
theorem deleteNonRefPatchFeatures_spec_witness :
    (deleteNonRefPatchFeatures vpW8).1.obs_ = [] :=
  (deleteNonRefPatchFeatures_spec vpW8).2.1 rfl

/-- C9: `addFrameRef f` prepends, and `deleteFeatureRef f` erases the first
matching entry, which is the newly prepended head, so the pair of calls
restores the observation list pointwise. -/
theorem addFrameRef_deleteFeatureRef_roundtrip (vp : VisualPoint) (f : Feature)
    (hnotin : f ∉ vp.obs_) :
    (deleteFeatureRef (addFrameRef vp f) f).obs_ = vp.obs_ := by
  by_cases hr : vp.ref_patch = some f <;>
    simp [deleteFeatureRef, addFrameRef, hr, List.erase_cons_head]

/-- Witness for C9 at a concrete point and fresh feature. -/
theorem addFrameRef_deleteFeatureRef_roundtrip_witness :
    (deleteFeatureRef (addFrameRef vp9 f9) f9).obs_ = vp9.obs_ :=
  addFrameRef_deleteFeatureRef_roundtrip vp9 f9 (by decide)

/-! ## Frame construction (C3, C4, C6) -/

theorem initFrame_of_empty (cam : Camera) (img : Img)
    (he : img.rows = 0 ∨ img.cols = 0) :
    initFrame cam img = (false, Except.error FrameError.emptyImage) := by
  unfold initFrame
  rw [if_pos he]

theorem initFrame_of_badtype (cam : Camera) (img : Img)
    (he : ¬(img.rows = 0 ∨ img.cols = 0)) (ht : img.typ ≠ CV_8UC1) :
    initFrame cam img =
      (decide (img.cols ≠ cam.width ∨ img.rows ≠ cam.height),
       Except.error FrameError.badPixelFormat) := by
  unfold initFrame
  rw [if_neg he]
  dsimp only
  rw [if_pos ht]

theorem initFrame_of_valid (cam : Camera) (img : Img)
    (he : ¬(img.rows = 0 ∨ img.cols = 0)) (ht : img.typ = CV_8UC1) :
    initFrame cam img =
      (decide (img.cols ≠ cam.width ∨ img.rows ≠ cam.height), Except.ok img) := by
  unfold initFrame
  rw [if_neg he]
  dsimp only
  rw [if_neg (not_not_intro ht)]

theorem initFrame_ok_eq (cam : Camera) (img s : Img)
    (h : (initFrame cam img).2 = Except.ok s) : s = img := by
  by_cases he : img.rows = 0 ∨ img.cols = 0
  · rw [initFrame_of_empty cam img he] at h
    exact absurd h (by simp)
  · by_cases ht : img.typ = CV_8UC1
    · rw [initFrame_of_valid cam img he ht] at h
      exact (Except.ok.inj h).symm
    · rw [initFrame_of_badtype cam img he ht] at h
      exact absurd h (by simp)

/-- C6: `initFrame` fails exactly when the image is empty (`EmptyImage`,
checked first) or not grayscale 8-bit (`BadPixelFormat`); an otherwise valid
image whose dimensions differ from the camera model only raises the warning
flag and the frame is still constructed from the supplied image; `mkFrame`
propagates the failure. -/
theorem initFrame_error_spec (cam : Camera) (img : Img) :
    ((∃ e, (initFrame cam img).2 = Except.error e) ↔
      (img.rows = 0 ∨ img.cols = 0) ∨ img.typ ≠ CV_8UC1) ∧
    ((img.rows = 0 ∨ img.cols = 0) →
      (initFrame cam img).2 = Except.error FrameError.emptyImage) ∧
    (¬(img.rows = 0 ∨ img.cols = 0) → img.typ ≠ CV_8UC1 →
      (initFrame cam img).2 = Except.error FrameError.badPixelFormat) ∧
    (¬(img.rows = 0 ∨ img.cols = 0) → img.typ = CV_8UC1 →
      (initFrame cam img).2 = Except.ok img ∧
      ((img.cols ≠ cam.width ∨ img.rows ≠ cam.height) → (initFrame cam img).1 = true)) ∧
    (∀ c : ℕ, frameOk (mkFrame c cam img).2 = false ↔
      (img.rows = 0 ∨ img.cols = 0) ∨ img.typ ≠ CV_8UC1) := by
  by_cases he : img.rows = 0 ∨ img.cols = 0
  · rw [initFrame_of_empty cam img he]
    refine ⟨⟨fun _ => Or.inl he, fun _ => ⟨FrameError.emptyImage, rfl⟩⟩,
      fun _ => rfl, fun hne _ => absurd he hne, fun hne _ => absurd he hne, ?_⟩
    intro c
    simp [mkFrame, initFrame_of_empty cam img he, frameOk, he]
  · by_cases ht : img.typ = CV_8UC1
    · rw [initFrame_of_valid cam img he ht]
      refine ⟨?_, fun h => absurd h he, fun _ h => absurd ht h,
        fun _ _ => ⟨rfl, fun hw => decide_eq_true hw⟩, ?_⟩
      · constructor
        · rintro ⟨e, hc⟩
          exact Except.noConfusion hc
        · rintro (h | h)
          · exact absurd h he
          · exact absurd ht h
      · intro c
        simp [mkFrame, initFrame_of_valid cam img he ht, frameOk, he, ht]
    · rw [initFrame_of_badtype cam img he ht]
      refine ⟨⟨fun _ => Or.inr ht, fun _ => ⟨FrameError.badPixelFormat, rfl⟩⟩,
        fun h => absurd h he, fun _ _ => rfl, fun _ h => absurd h ht, ?_⟩
      intro c
      simp [mkFrame, initFrame_of_badtype cam img he ht, frameOk, he, ht]

/-- Witness for C6: a valid 2x2 image against a 4x4 camera model is accepted
with the size-mismatch warning raised. -/
theorem initFrame_error_spec_witness :
    (initFrame cam4 img2).2 = Except.ok img2 ∧ (initFrame cam4 img2).1 = true := by
  have h := (initFrame_error_spec cam4 img2).2.2.2.1 (by decide) (by decide)
  exact ⟨h.1, h.2 (by decide)⟩

theorem mkFrame_fst (c : ℕ) (cam : Camera) (img : Img) :
    (mkFrame c cam img).1 = c + 1 := by
  rcases h : (initFrame cam img).2 with e | s <;> simp [mkFrame, h]

theorem runAttempts_map_fst (cam : Camera) :
    ∀ (imgs : List Img) (c : ℕ),
    (runAttempts cam c imgs).map Prod.fst = List.range' c imgs.length
  | [], _ => rfl
  | img :: rest, c => by
    simp only [runAttempts, List.map_cons, List.length_cons, mkFrame_fst]
    rw [runAttempts_map_fst cam rest (c + 1)]
    rfl

theorem runAttempts_fst_ge (cam : Camera) :
    ∀ (imgs : List Img) (c : ℕ) (p : ℕ × Bool), p ∈ runAttempts cam c imgs → c ≤ p.1
  | [], _, _, h => absurd h (List.not_mem_nil _)
  | img :: rest, c, p, h => by
    rw [runAttempts] at h
    rcases List.mem_cons.mp h with he | ht
    · rw [he]
    · have := runAttempts_fst_ge cam rest (c + 1) p (by rwa [mkFrame_fst] at ht)
      omega

theorem runAttempts_pairwise (cam : Camera) :
    ∀ (imgs : List Img) (c : ℕ),
    List.Pairwise (fun p q : ℕ × Bool => p.1 < q.1) (runAttempts cam c imgs)
  | [], _ => List.Pairwise.nil
  | img :: rest, c => by
    rw [runAttempts]
    refine List.Pairwise.cons ?_ ?_
    · intro q hq
      have := runAttempts_fst_ge cam rest (c + 1) q (by rwa [mkFrame_fst] at hq)
      omega
    · rw [mkFrame_fst]
      exact runAttempts_pairwise cam rest (c + 1)

theorem successIds_pairwise (cam : Camera) (c : ℕ) (imgs : List Img) :
    List.Pairwise (fun a b : ℕ => a < b) (successIds (runAttempts cam c imgs)) := by
  unfold successIds
  rw [List.pairwise_map]
  exact (runAttempts_pairwise cam imgs c).filter _

/-- C3 counterexample: attempts good-empty-good from counter 0 yield
successful ids `[0, 2]`: the failed attempt still consumed id 1 (the member
initializer `id_(frame_counter_++)` runs before `initFrame` can throw), so the
successful ids are not consecutive. -/
theorem frame_ids_gap_counterexample :
    successIds (runAttempts cam4 0 [img4, imgE, img4]) = [0, 2] ∧
    ¬ List.Chain' (fun a b : ℕ => b = a + 1) [0, 2] :=
  ⟨by decide, fun hch => absurd (List.chain'_cons.mp hch).1 (by omega)⟩

/-- C3 amended: every construction attempt, successful or not, consumes
exactly one counter value (attempt i gets id start + i), so the ids of the
successfully constructed frames are strictly increasing, with gaps exactly at
failed attempts. -/
theorem frame_ids_amended (cam : Camera) (c : ℕ) (imgs : List Img) :
    (runAttempts cam c imgs).map Prod.fst = List.range' c imgs.length ∧
    List.Pairwise (fun a b : ℕ => a < b) (successIds (runAttempts cam c imgs)) :=
  ⟨runAttempts_map_fst cam imgs c, successIds_pairwise cam c imgs⟩

/-- C4 counterexample: the successfully constructed frame from a valid 4x4
image has an empty pyramid member: no pyramid of any depth `n ≥ 1` was built
during construction. -/
theorem frame_ctor_no_pyramid_counterexample :
    (mkFrame 0 cam4 img4).2 = Except.ok frame4 ∧
    ¬ ∃ n, 1 ≤ n ∧ frame4.img_pyr_ = createImgPyramid frame4.img_ n := by
  constructor
  · rfl
  · rintro ⟨n, hn, hp⟩
    rcases n with _ | k
    · exact absurd hn (by decide)
    · simp [frame4, createImgPyramid] at hp

/-- C4 amended: construction validates and stores the supplied image and
assigns the id, but does not build the pyramid: the pyramid member stays
empty, to be filled on demand by the separate utility
`frame_utils::createImgPyramid`. -/
theorem frame_ctor_stores_image_no_pyramid (c : ℕ) (cam : Camera) (img : Img)
    (fr : Frame) (h : (mkFrame c cam img).2 = Except.ok fr) :
    fr.img_ = img ∧ fr.img_pyr_ = [] ∧ fr.id_ = c := by
  rcases hi : (initFrame cam img).2 with e | s
  · simp [mkFrame, hi] at h
  · simp only [mkFrame, hi, Except.ok.injEq] at h
    rw [← h]
    exact ⟨initFrame_ok_eq cam img s hi, rfl, rfl⟩

/-- Witness for the amended C4 at the concrete valid image. -/
theorem frame_ctor_stores_image_no_pyramid_witness :
    frame4.img_ = img4 ∧ frame4.img_pyr_ = [] ∧ frame4.id_ = 0 :=
  frame_ctor_stores_image_no_pyramid 0 cam4 img4 frame4 rfl

/-! ## Image pyramid (C5) -/

theorem pyrLevel_halfSample (img : Img) :
    ∀ k : ℕ, pyrLevel (halfSample img) k = pyrLevel img (k + 1)
  | 0 => rfl
  | k + 1 => by
    show halfSample (pyrLevel (halfSample img) k) = halfSample (pyrLevel img (k + 1))
    rw [pyrLevel_halfSample img k]

theorem buildLevels_eq : ∀ (k : ℕ) (p : Img),
    buildLevels p k = (List.range k).map (fun i => pyrLevel p (i + 1))
  | 0, _ => rfl
  | k + 1, p => by
    rw [buildLevels, buildLevels_eq k (halfSample p), List.range_succ_eq_map,
      List.map_cons, List.map_map]
    refine List.cons_eq_cons.mpr ⟨rfl, ?_⟩
    apply List.map_congr_left
    intro i _
    exact pyrLevel_halfSample p (i + 1)

theorem createImgPyramid_eq (img : Img) (k : ℕ) :
    createImgPyramid img (k + 1) = (List.range (k + 1)).map (pyrLevel img) := by
  rw [show createImgPyramid img (k + 1) = img :: buildLevels img k from rfl,
    buildLevels_eq k img, List.range_succ_eq_map, List.map_cons, List.map_map]
  rfl

theorem createImgPyramid_get (img : Img) (n k : ℕ) (hn : 1 ≤ n) (hk : k < n) :
    (createImgPyramid img n)[k]? = some (pyrLevel img k) := by
  rcases n with _ | m
  · omega
  · rw [createImgPyramid_eq img m, List.getElem?_map, List.getElem?_range hk]
    rfl

/-- C5: for every non-empty single-channel 8-bit image and every N ≥ 1,
`createImgPyramid` produces exactly N levels, level 0 is the input itself, and
every level k ≥ 1 is the 2x2 box-average half-sample of level k-1, with
floor-halved dimensions. -/
theorem createImgPyramid_spec (img : Img) (n : ℕ) (hn : 1 ≤ n)
    (hrows : 0 < img.rows) (hcols : 0 < img.cols) (htyp : img.typ = CV_8UC1) :
    (createImgPyramid img n).length = n ∧
    (createImgPyramid img n)[0]? = some img ∧
    ∀ k, 1 ≤ k → k < n → ∃ prev cur,
      (createImgPyramid img n)[k - 1]? = some prev ∧
      (createImgPyramid img n)[k]? = some cur ∧
      cur = halfSample prev ∧ cur.rows = prev.rows / 2 ∧ cur.cols = prev.cols / 2 := by
  refine ⟨?_, ?_, ?_⟩
  · rcases n with _ | m
    · omega
    · rw [createImgPyramid_eq img m, List.length_map, List.length_range]
  · rw [createImgPyramid_get img n 0 hn (by omega)]
    rfl
  · intro k hk1 hkn
    have hstep : pyrLevel img k = halfSample (pyrLevel img (k - 1)) := by
      have h2 : pyrLevel img (k - 1 + 1) = halfSample (pyrLevel img (k - 1)) := rfl
      have h3 : k - 1 + 1 = k := by omega
      rw [h3] at h2
      exact h2
    exact ⟨pyrLevel img (k - 1), pyrLevel img k,
      createImgPyramid_get img n (k - 1) hn (by omega),
      createImgPyramid_get img n k hn hkn, hstep,
      by rw [hstep]; rfl, by rw [hstep]; rfl⟩

/-- Witness for C5: the 4x4 image with two levels. -/
theorem createImgPyramid_spec_witness :
    (createImgPyramid img4 2).length = 2 ∧
    (createImgPyramid img4 2)[0]? = some img4 ∧
    ∀ k, 1 ≤ k → k < 2 → ∃ prev cur,
      (createImgPyramid img4 2)[k - 1]? = some prev ∧
      (createImgPyramid img4 2)[k]? = some cur ∧
      cur = halfSample prev ∧ cur.rows = prev.rows / 2 ∧ cur.cols = prev.cols / 2 :=
  createImgPyramid_spec img4 2 (by decide) (by decide) (by decide) rfl

end FastLivo
